import Mathlib

/-!
Verification development for the core of the `contour` terminal emulator
sources: the `crispy::LRUCache` container, the DEC/ECMA-48 parser state
machine (`terminal::parser`), the DEC Text Locator (`terminal::DECTextLocator`)
and the image fragment model (`terminal::ImageFragment`).

Each C++ component is shallowly embedded as executable Lean definitions:
machine integers become `Nat` (with the C++ sentinel `size_t(-1)` kept as the
explicit value `2^64 - 1`), `std::vector` indexing becomes bounds-checked list
access that returns `Except Err`, a C++ `assert` becomes an explicit check
(`Err.assertFailed`), and `throw std::out_of_range` in `LRUCache::at` becomes
`Err.notFound`.
-/

namespace crispy

/-- Error outcomes of the embedded C++ code: `outOfBounds` models an
out-of-bounds vector access (undefined behaviour in the source), `assertFailed`
models a failing `assert(...)`, and `notFound` models
`throw std::out_of_range` in `LRUCache::at`. -/
inductive Err
  | outOfBounds
  | assertFailed
  | notFound
deriving DecidableEq, Repr

/-- The sentinel slot index: `size_t static constexpr inline npos = size_t(-1)`. -/
def npos : Nat := 2 ^ 64 - 1

/-- One slot of the `LRUCache` slot vector (`LRUCache::Item`): key, value and
the two intrusive list links. -/
structure Item (K V : Type) where
  key : K
  value : V
  prev : Nat
  next : Nat
deriving DecidableEq, Repr

variable {K V : Type} [DecidableEq K] [Inhabited K] [Inhabited V]

/-- A default-constructed `Item{}`, as produced by `Item::clear()`. -/
def Item.cleared : Item K V :=
  { key := default, value := default, prev := npos, next := npos }

/-- `std::unordered_map<Key, size_t>::find`, on the association-list model of
the map. -/
def lookupKey : List (K × Nat) → K → Option Nat
  | [], _ => none
  | (k', i) :: rest, k => if k = k' then some i else lookupKey rest k

/-- `std::unordered_map::erase` of one key (keys are unique in the map). -/
def eraseKey : List (K × Nat) → K → List (K × Nat)
  | [], _ => []
  | (k', i) :: rest, k => if k = k' then rest else (k', i) :: eraseKey rest k

/-- `std::unordered_map::emplace`: inserts the pair only when the key is
absent. -/
def emplaceKey (m : List (K × Nat)) (k : K) (i : Nat) : List (K × Nat) :=
  if (lookupKey m k).isSome then m else m ++ [(k, i)]

/-- The embedded `crispy::LRUCache<Key, Value>`: the pre-allocated slot vector
`items_`, the intrusive list heads `head_`/`tail_`, the key-to-slot hash map
`itemByKeyMapping_` and `capacity_`. -/
structure LRUCache (K V : Type) where
  items : List (Item K V)
  head : Nat
  tail : Nat
  itemByKeyMapping : List (K × Nat)
  capacity : Nat
deriving DecidableEq, Repr

namespace LRUCache

/-- The constructor `LRUCache(capacity)`: `items_.resize(capacity)` with
default-constructed items, `head_ = tail_ = npos`, empty map. -/
def ofCapacity (cap : Nat) : LRUCache K V :=
  { items := List.replicate cap Item.cleared
    head := npos
    tail := npos
    itemByKeyMapping := []
    capacity := cap }

/-- `size()`: the number of entries of `itemByKeyMapping_`. -/
def size (c : LRUCache K V) : Nat := c.itemByKeyMapping.length

/-- A read `items_[i]`, bounds-checked (an out-of-range index is undefined
behaviour in the C++ source and is reported as `Err.outOfBounds`). -/
def getItem (c : LRUCache K V) (i : Nat) : Except Err (Item K V) :=
  if h : i < c.items.length then .ok (c.items.get ⟨i, h⟩) else .error .outOfBounds

/-- A write `items_[i].field = ...`, bounds-checked like `getItem`. -/
def modifyItem (c : LRUCache K V) (i : Nat) (f : Item K V → Item K V) :
    Except Err (LRUCache K V) :=
  if h : i < c.items.length then
    .ok { c with items := c.items.set i (f (c.items.get ⟨i, h⟩)) }
  else .error .outOfBounds

/-- The embedding of the C++ `assert(cond)` (debug semantics: a false
condition stops execution). -/
def assertCheck (cond : Bool) : Except Err Unit :=
  if cond then .ok () else .error .assertFailed

/-- `Value* try_get(Key)`: looks the key up in `itemByKeyMapping_` and, when
found in a slot other than `head_`, rewires the links exactly as the source
does (`items_[head_].prev = newHead; items_[head_].next = items_[newHead].next;
items_[newHead].next = head_; items_[newHead].prev = npos; head_ = newHead;`)
before returning a pointer to the value.  The returned pair is the value (or
`none` when absent) together with the mutated cache. -/
def try_get (c : LRUCache K V) (k : K) : Except Err (Option V × LRUCache K V) :=
  match lookupKey c.itemByKeyMapping k with
  | some newHead =>
    if newHead ≠ c.head then do
      let c1 ← c.modifyItem c.head (fun it => { it with prev := newHead })
      let nxIt ← c1.getItem newHead
      let c2 ← c1.modifyItem c1.head (fun it => { it with next := nxIt.next })
      let c3 ← c2.modifyItem newHead (fun it => { it with next := c2.head })
      let c4 ← c3.modifyItem newHead (fun it => { it with prev := npos })
      let c5 := { c4 with head := newHead }
      let _ ← assertCheck (c5.head ≠ npos)
      let it ← c5.getItem newHead
      .ok (some it.value, c5)
    else do
      let it ← c.getItem newHead
      .ok (some it.value, c)
  | none => .ok (none, c)

/-- `bool contains(Key) const`: `try_get(_key) != nullptr`.  The `const`
overload of `try_get` const-casts to the mutating overload, so `contains`
threads the (possibly promoted) cache state. -/
def contains (c : LRUCache K V) (k : K) : Except Err (Bool × LRUCache K V) := do
  let (r, c') ← c.try_get k
  .ok (r.isSome, c')

/-- `Value& at(Key)`: returns the value found by `try_get`, and models
`throw std::out_of_range("_key")` on a missing key as `Err.notFound`. -/
def at' (c : LRUCache K V) (k : K) : Except Err (V × LRUCache K V) := do
  let (r, c') ← c.try_get k
  match r with
  | some v => .ok (v, c')
  | none => .error .notFound

/-- `void prepend_internal(Key, Value)`: places the new entry in slot
`size()`, splices it before `head_`, and records it in the map. -/
def prepend_internal (c : LRUCache K V) (k : K) (v : V) : Except Err (LRUCache K V) := do
  let _ ← assertCheck (decide (c.size < c.capacity))
  let newHead := c.size
  let c1 ← c.modifyItem newHead (fun it => { it with key := k })
  let c2 ← c1.modifyItem newHead (fun it => { it with value := v })
  let c3 ← c2.modifyItem newHead (fun it => { it with next := c2.head })
  let c4 ← if c3.head ≠ npos then c3.modifyItem c3.head (fun it => { it with prev := newHead })
           else .ok c3
  let c5 := { c4 with head := newHead }
  let c6 := if c5.tail = npos then { c5 with tail := c5.head } else c5
  let _ ← assertCheck (c6.head ≠ npos)
  let _ ← assertCheck (c6.tail ≠ npos)
  .ok { c6 with itemByKeyMapping := emplaceKey c6.itemByKeyMapping k c6.head }

/-- `Item& evict_one_and_push_front(Key)`: drops the mapping of the key held
in the tail slot, rebinds that slot to the new key as the new head, and sets
`tail_` to the previous tail's predecessor.  Returns the cache together with
the slot index of the returned `items_[head_]` reference (whose `.value` the
caller then assigns). -/
def evict_one_and_push_front (c : LRUCache K V) (newKey : K) :
    Except Err (LRUCache K V × Nat) := do
  let tailIt ← c.getItem c.tail
  match lookupKey c.itemByKeyMapping tailIt.key with
  | none => .error .assertFailed
  | some newHead => do
    let newTail := tailIt.prev
    let m1 := eraseKey c.itemByKeyMapping tailIt.key
    let m2 := emplaceKey m1 newKey newHead
    let c0 : LRUCache K V := { c with itemByKeyMapping := m2 }
    let c1 ← c0.modifyItem c0.head (fun it => { it with prev := newHead })
    let c2 ← c1.modifyItem newHead (fun it => { it with prev := npos })
    let c3 ← c2.modifyItem newHead (fun it => { it with key := newKey })
    let c4 ← c3.modifyItem newHead (fun it => { it with next := c3.head })
    let c5 ← c4.modifyItem newTail (fun it => { it with next := npos })
    let c6 := { c5 with head := newHead, tail := newTail }
    let _ ← assertCheck (c6.head ≠ npos)
    let _ ← assertCheck (c6.tail ≠ npos)
    .ok (c6, newHead)

/-- `Value& emplace(Key, Value)`: asserts the key absent, then either evicts
the least-recently used entry (at capacity) or prepends into a fresh slot. -/
def emplace (c : LRUCache K V) (k : K) (v : V) : Except Err (LRUCache K V) := do
  let (b, c1) ← c.contains k
  let _ ← assertCheck (!b)
  if c1.size = c1.capacity then do
    let (c2, idx) ← c1.evict_one_and_push_front k
    c2.modifyItem idx (fun it => { it with value := v })
  else
    c1.prepend_internal k v

/-- `void clear()`: `items_[i].clear()` for `i < size()`, then
`itemByKeyMapping_.clear()`.  Note that `head_` and `tail_` are left as they
were. -/
def clear (c : LRUCache K V) : Except Err (LRUCache K V) := do
  let c1 ← (List.range c.size).foldlM (fun acc i => acc.modifyItem i (fun _ => Item.cleared)) c
  .ok { c1 with itemByKeyMapping := [] }

/-- The loop body of `keys()`: `result.resize(size())` followed by
`result[i++] = items_[pos].key` while walking `next` links from `head_`.  A
write at `i ≥ size()` is an out-of-bounds vector write (undefined behaviour),
reported as `Err.outOfBounds`. -/
def keysGo (c : LRUCache K V) : Nat → Nat → Nat → List K → Except Err (List K)
  | 0, _, _, _ => .error .outOfBounds
  | fuel + 1, pos, i, acc =>
    if pos = npos then .ok acc
    else if i < c.size then
      match c.getItem pos with
      | .error e => .error e
      | .ok it => keysGo c fuel it.next (i + 1) (acc ++ [it.key])
    else .error .outOfBounds

/-- `std::vector<Key> keys() const` (the fuel `size() + 1` is never exhausted:
the write bound `i < size()` fails first). -/
def keys (c : LRUCache K V) : Except Err (List K) := keysGo c (c.size + 1) c.head 0 []

/-- The slot index following `pos` in the intrusive list (total read used only
by the model-side `chain` observer below). -/
def nextOf (c : LRUCache K V) (pos : Nat) : Nat := (c.items.getD pos Item.cleared).next

/-- Model-side observer: the list of slot indices reachable from `head_` by
`next` links (fuel-bounded so it is total even on corrupted states). -/
def chainFrom (c : LRUCache K V) : Nat → Nat → List Nat
  | 0, _ => []
  | fuel + 1, pos => if pos = npos then [] else pos :: c.chainFrom fuel (c.nextOf pos)

/-- Model-side observer: the slot chain of the cache, starting at `head_`. -/
def chain (c : LRUCache K V) : List Nat := c.chainFrom (c.items.length + 1) c.head

end LRUCache

/-- One cache operation of the scenarios in the claims (`emplace` is the
insert operation; `get` is `try_get` with the returned pointer discarded). -/
inductive LRUOp (K V : Type)
  | insert (k : K) (v : V)
  | get (k : K)
  | clearAll
deriving DecidableEq, Repr

/-- Runs one operation on the cache. -/
def runOp (c : LRUCache K V) : LRUOp K V → Except Err (LRUCache K V)
  | .insert k v => c.emplace k v
  | .get k => do
    let (_, c') ← c.try_get k
    .ok c'
  | .clearAll => c.clear

/-- Runs an operation sequence against a fresh cache of the given capacity. -/
def runOps (cap : Nat) (ops : List (LRUOp K V)) : Except Err (LRUCache K V) :=
  ops.foldlM runOp (LRUCache.ofCapacity cap)

/-- The cache state after `insert(1,10); insert(2,20); get(1)` on a fresh
capacity-2 cache (the promoted-tail scenario of the LRU claims). -/
def lruPromotedTail : Except Err (LRUCache Nat Nat) :=
  runOps 2 [LRUOp.insert 1 10, .insert 2 20, .get 1]

/-- The cache state after `insert(1,10); insert(2,20)` on a fresh capacity-2
cache. -/
def lruTwoEntries : Except Err (LRUCache Nat Nat) :=
  runOps 2 [LRUOp.insert 1 10, .insert 2 20]

/-- The cache state after `insert(1,10); insert(2,20); clear()`. -/
def lruCleared : Except Err (LRUCache Nat Nat) :=
  runOps 2 [LRUOp.insert 1 10, .insert 2 20, .clearAll]

end crispy

namespace terminal.parser

/-- The parser states (`terminal::parser::State`, listed in the spec); the
C++ `State::Undefined` table filler is represented by `Option.none` in the
transition table instead of a constructor. -/
inductive PState
  | Ground
  | Escape
  | EscapeIntermediate
  | CSI_Entry
  | CSI_Param
  | CSI_Intermediate
  | CSI_Ignore
  | DCS_Entry
  | DCS_Param
  | DCS_Intermediate
  | DCS_PassThrough
  | DCS_Ignore
  | OSC_String
  | APC_String
  | PM_String
  | IgnoreUntilST
deriving DecidableEq, Fintype, Repr

/-- The table actions (`terminal::parser::Action`). -/
inductive Action
  | Undefined
  | Ignore
  | Execute
  | Print
  | Clear
  | Collect
  | CollectLeader
  | Param
  | ParamDigit
  | ParamSeparator
  | ParamSubSeparator
  | ESC_Dispatch
  | CSI_Dispatch
  | OSC_Start
  | OSC_Put
  | OSC_End
  | Hook
  | Put
  | Unhook
  | APC_Start
  | APC_Put
  | APC_End
  | PM_Start
  | PM_Put
  | PM_End
deriving DecidableEq, Repr

/-- The action classes passed to `Parser::handle` (`terminal::parser::ActionClass`). -/
inductive ActionClass
  | Enter
  | Event
  | Leave
  | Transition
deriving DecidableEq, Repr

/-- The semantic events the parser emits to its listener (the
`EventListener` capability set; each constructor is one listener call). -/
inductive PEvent
  | print (c : Fin 256)
  | execute (c : Fin 256)
  | clear
  | collect (c : Fin 256)
  | collectLeader (c : Fin 256)
  | param (c : Fin 256)
  | paramDigit (c : Fin 256)
  | paramSeparator
  | paramSubSeparator
  | dispatchESC (c : Fin 256)
  | dispatchCSI (c : Fin 256)
  | startOSC
  | putOSC (c : Fin 256)
  | dispatchOSC
  | hook (c : Fin 256)
  | put (c : Fin 256)
  | unhook
  | startAPC
  | putAPC (c : Fin 256)
  | dispatchAPC
  | startPM
  | putPM (c : Fin 256)
  | dispatchPM
  | error
deriving DecidableEq, Repr

/-- Modelled from the spec: the static transition table of §4.2 — indexed by
(state, byte) it yields the next state (`none` standing for the C++
`State::Undefined` filler), plus a per-(state, byte) event action and
per-state entry and exit actions.  The builder member functions declared in
`Parser.h` (which is not among the sources) are embedded below following the
spec's description of the table. -/
structure ParserTable where
  transitions : PState → Fin 256 → Option PState
  events : PState → Fin 256 → Action
  entryEvents : PState → Action
  exitEvents : PState → Action

namespace ParserTable

/-- Modelled from the spec: the empty table everything defaults to
`Undefined` in. -/
def empty : ParserTable :=
  { transitions := fun _ _ => none
    events := fun _ _ => Action.Undefined
    entryEvents := fun _ => Action.Undefined
    exitEvents := fun _ => Action.Undefined }

/-- Modelled from the spec: `t.event(state, action, range)` — sets the event
action for every byte of the inclusive range `[lo, hi]` in the given state. -/
def event (t : ParserTable) (s : PState) (a : Action) (lo hi : Nat) : ParserTable :=
  { t with
    events := fun s' b =>
      if s' = s ∧ lo ≤ b.val ∧ b.val ≤ hi then a else t.events s' b }

/-- Modelled from the spec: `t.transition(from, to, range)` — sets the next
state for every byte of the inclusive range `[lo, hi]`, leaving the event
action untouched. -/
def transition (t : ParserTable) (s next : PState) (lo hi : Nat) : ParserTable :=
  { t with
    transitions := fun s' b =>
      if s' = s ∧ lo ≤ b.val ∧ b.val ≤ hi then some next else t.transitions s' b }

/-- Modelled from the spec: `t.transition(from, to, action, range)` — the
overload that also records the event action for the range. -/
def transitionA (t : ParserTable) (s next : PState) (a : Action) (lo hi : Nat) : ParserTable :=
  (t.event s a lo hi).transition s next lo hi

/-- Modelled from the spec: `t.entry(state, action)` — the state's entry action. -/
def entry (t : ParserTable) (s : PState) (a : Action) : ParserTable :=
  { t with entryEvents := fun s' => if s' = s then a else t.entryEvents s' }

/-- Modelled from the spec: `t.exit(state, action)` — the state's exit action. -/
def exitAt (t : ParserTable) (s : PState) (a : Action) : ParserTable :=
  { t with exitEvents := fun s' => if s' = s then a else t.exitEvents s' }

/-- The enumeration order of the `for (State anywhere = min; ...)` loop at
the end of `ParserTable::get`. -/
def allStates : List PState :=
  [.Ground, .Escape, .EscapeIntermediate, .CSI_Entry, .CSI_Param, .CSI_Intermediate,
   .CSI_Ignore, .DCS_Entry, .DCS_Param, .DCS_Intermediate, .DCS_PassThrough, .DCS_Ignore,
   .OSC_String, .APC_String, .PM_String, .IgnoreUntilST]

end ParserTable

/-- One builder call of `ParserTable::get`: an `event`, `transition` (with or
without action), `entry` or `exit` registration. -/
inductive Cmd
  | ev (s : PState) (a : Action) (lo hi : Nat)
  | tr (s next : PState) (lo hi : Nat)
  | trA (s next : PState) (a : Action) (lo hi : Nat)
  | en (s : PState) (a : Action)
  | ex (s : PState) (a : Action)
deriving DecidableEq, Repr

/-- Applies one builder call to the table under construction. -/
def applyCmd (t : ParserTable) : Cmd → ParserTable
  | .ev s a lo hi => t.event s a lo hi
  | .tr s next lo hi => t.transition s next lo hi
  | .trA s next a lo hi => t.transitionA s next a lo hi
  | .en s a => t.entry s a
  | .ex s a => t.exitAt s a

namespace ParserTable

/-- The builder calls of `constexpr ParserTable ParserTable::get()`,
transcribed call by call from `Parser-impl.h` (multi-range calls are expanded
into one call per range, in argument order; single bytes are the range
`[b, b]`); the trailing `for (State anywhere = ...)` loop is appended state by
state in enumeration order. -/
def buildCmds : List Cmd :=
  -- Ground
  [Cmd.ev .Ground .Execute 0x00 0x17,
   Cmd.ev .Ground .Execute 0x19 0x19,
   Cmd.ev .Ground .Execute 0x1C 0x1F,
   Cmd.ev .Ground .Print 0x20 0x7F,
   Cmd.ev .Ground .Print 0xA0 0xFF,
   Cmd.ev .Ground .Print 0x80 0xFF,
  -- EscapeIntermediate
   Cmd.ev .EscapeIntermediate .Execute 0x00 0x17,
   Cmd.ev .EscapeIntermediate .Execute 0x19 0x19,
   Cmd.ev .EscapeIntermediate .Execute 0x1C 0x1F,
   Cmd.ev .EscapeIntermediate .Collect 0x20 0x2F,
   Cmd.ev .EscapeIntermediate .Ignore 0x7F 0x7F,
   Cmd.trA .EscapeIntermediate .Ground .ESC_Dispatch 0x30 0x7E,
  -- Escape
   Cmd.en .Escape .Clear,
   Cmd.ev .Escape .Execute 0x00 0x17,
   Cmd.ev .Escape .Execute 0x19 0x19,
   Cmd.ev .Escape .Execute 0x1C 0x1F,
   Cmd.ev .Escape .Ignore 0x7F 0x7F,
   Cmd.tr .Escape .IgnoreUntilST 0x58 0x58,
   Cmd.tr .Escape .PM_String 0x5E 0x5E,
   Cmd.tr .Escape .APC_String 0x5F 0x5F,
   Cmd.tr .Escape .DCS_Entry 0x50 0x50,
   Cmd.tr .Escape .OSC_String 0x5D 0x5D,
   Cmd.tr .Escape .CSI_Entry 0x5B 0x5B,
   Cmd.trA .Escape .Ground .ESC_Dispatch 0x30 0x4F,
   Cmd.trA .Escape .Ground .ESC_Dispatch 0x51 0x57,
   Cmd.trA .Escape .Ground .ESC_Dispatch 0x59 0x59,
   Cmd.trA .Escape .Ground .ESC_Dispatch 0x5A 0x5A,
   Cmd.trA .Escape .Ground .Ignore 0x5C 0x5C,
   Cmd.trA .Escape .Ground .ESC_Dispatch 0x60 0x7E,
   Cmd.trA .Escape .EscapeIntermediate .Collect 0x20 0x2F,
  -- IgnoreUntilST
   Cmd.ev .IgnoreUntilST .Ignore 0x00 0x17,
   Cmd.ev .IgnoreUntilST .Ignore 0x19 0x19,
   Cmd.ev .IgnoreUntilST .Ignore 0x1C 0x1F,
  -- DCS_Entry
   Cmd.en .DCS_Entry .Clear,
   Cmd.ev .DCS_Entry .Ignore 0x00 0x17,
   Cmd.ev .DCS_Entry .Ignore 0x19 0x19,
   Cmd.ev .DCS_Entry .Ignore 0x1C 0x1F,
   Cmd.ev .DCS_Entry .Ignore 0x7F 0x7F,
   Cmd.trA .DCS_Entry .DCS_Intermediate .Collect 0x20 0x2F,
   Cmd.tr .DCS_Entry .DCS_Ignore 0x3A 0x3A,
   Cmd.trA .DCS_Entry .DCS_Param .Param 0x30 0x39,
   Cmd.trA .DCS_Entry .DCS_Param .Param 0x3B 0x3B,
   Cmd.trA .DCS_Entry .DCS_Param .CollectLeader 0x3C 0x3F,
   Cmd.tr .DCS_Entry .DCS_PassThrough 0x40 0x7E,
  -- DCS_Ignore
   Cmd.ev .DCS_Ignore .Ignore 0x00 0x17,
   Cmd.ev .DCS_Ignore .Ignore 0x19 0x19,
   Cmd.ev .DCS_Ignore .Ignore 0x1C 0x1F,
   Cmd.ev .DCS_Ignore .Ignore 0x20 0x7F,
   Cmd.ev .DCS_Ignore .Print 0xA0 0xFF,
   Cmd.ev .DCS_Ignore .Print 0x80 0xFF,
  -- DCS_Intermediate
   Cmd.ev .DCS_Intermediate .Ignore 0x00 0x17,
   Cmd.ev .DCS_Intermediate .Ignore 0x19 0x19,
   Cmd.ev .DCS_Intermediate .Ignore 0x1C 0x1F,
   Cmd.ev .DCS_Intermediate .Collect 0x20 0x2F,
   Cmd.ev .DCS_Intermediate .Ignore 0x7F 0x7F,
   Cmd.tr .DCS_Intermediate .DCS_PassThrough 0x40 0x7E,
  -- DCS_PassThrough
   Cmd.en .DCS_PassThrough .Hook,
   Cmd.ev .DCS_PassThrough .Put 0x00 0x17,
   Cmd.ev .DCS_PassThrough .Put 0x19 0x19,
   Cmd.ev .DCS_PassThrough .Put 0x1C 0x1F,
   Cmd.ev .DCS_PassThrough .Put 0x20 0x7E,
   Cmd.ev .DCS_PassThrough .Ignore 0x7F 0x7F,
   Cmd.ex .DCS_PassThrough .Unhook,
  -- DCS_Param
   Cmd.ev .DCS_Param .Execute 0x00 0x17,
   Cmd.ev .DCS_Param .Execute 0x19 0x19,
   Cmd.ev .DCS_Param .Execute 0x1C 0x1F,
   Cmd.ev .DCS_Param .Param 0x30 0x39,
   Cmd.ev .DCS_Param .Param 0x3B 0x3B,
   Cmd.ev .DCS_Param .Ignore 0x7F 0x7F,
   Cmd.tr .DCS_Param .DCS_Ignore 0x3A 0x3A,
   Cmd.tr .DCS_Param .DCS_Ignore 0x3C 0x3F,
   Cmd.tr .DCS_Param .DCS_Intermediate 0x20 0x2F,
   Cmd.tr .DCS_Param .DCS_PassThrough 0x40 0x7E,
  -- OSC_String (with the xterm extension: BEL 0x07 also terminates)
   Cmd.en .OSC_String .OSC_Start,
   Cmd.ev .OSC_String .Ignore 0x00 0x06,
   Cmd.ev .OSC_String .Ignore 0x08 0x17,
   Cmd.ev .OSC_String .Ignore 0x19 0x19,
   Cmd.ev .OSC_String .Ignore 0x1C 0x1F,
   Cmd.ev .OSC_String .OSC_Put 0x20 0x7F,
   Cmd.ev .OSC_String .OSC_Put 0xA0 0xFF,
   Cmd.ev .OSC_String .OSC_Put 0x80 0xFF,
   Cmd.ex .OSC_String .OSC_End,
   Cmd.tr .OSC_String .Ground 0x07 0x07,
  -- APC_String
   Cmd.en .APC_String .APC_Start,
   Cmd.ev .APC_String .APC_Put 0x20 0x7F,
   Cmd.ev .APC_String .APC_Put 0xA0 0xFF,
   Cmd.ev .APC_String .APC_Put 0x80 0xFF,
   Cmd.ex .APC_String .APC_End,
   Cmd.tr .APC_String .Ground 0x07 0x07,
  -- PM_String
   Cmd.en .PM_String .PM_Start,
   Cmd.ev .PM_String .PM_Put 0x00 0x17,
   Cmd.ev .PM_String .PM_Put 0x19 0x19,
   Cmd.ev .PM_String .PM_Put 0x1C 0x1F,
   Cmd.ev .PM_String .PM_Put 0x20 0x7F,
   Cmd.ev .PM_String .PM_Put 0xA0 0xFF,
   Cmd.ev .PM_String .PM_Put 0x80 0xFF,
   Cmd.ex .PM_String .PM_End,
   Cmd.tr .PM_String .Ground 0x07 0x07,
  -- CSI_Entry
   Cmd.en .CSI_Entry .Clear,
   Cmd.ev .CSI_Entry .Execute 0x00 0x17,
   Cmd.ev .CSI_Entry .Execute 0x19 0x19,
   Cmd.ev .CSI_Entry .Execute 0x1C 0x1F,
   Cmd.ev .CSI_Entry .Ignore 0x7F 0x7F,
   Cmd.trA .CSI_Entry .Ground .CSI_Dispatch 0x40 0x7E,
   Cmd.trA .CSI_Entry .CSI_Intermediate .Collect 0x20 0x2F,
   Cmd.tr .CSI_Entry .CSI_Ignore 0x3A 0x3A,
   Cmd.trA .CSI_Entry .CSI_Param .ParamDigit 0x30 0x39,
   Cmd.trA .CSI_Entry .CSI_Param .ParamSeparator 0x3B 0x3B,
   Cmd.trA .CSI_Entry .CSI_Param .CollectLeader 0x3C 0x3F,
  -- CSI_Param
   Cmd.ev .CSI_Param .Execute 0x00 0x17,
   Cmd.ev .CSI_Param .Execute 0x19 0x19,
   Cmd.ev .CSI_Param .Execute 0x1C 0x1F,
   Cmd.ev .CSI_Param .ParamDigit 0x30 0x39,
   Cmd.ev .CSI_Param .ParamSubSeparator 0x3A 0x3A,
   Cmd.ev .CSI_Param .ParamSeparator 0x3B 0x3B,
   Cmd.ev .CSI_Param .Ignore 0x7F 0x7F,
   Cmd.tr .CSI_Param .CSI_Ignore 0x3C 0x3F,
   Cmd.trA .CSI_Param .CSI_Intermediate .Collect 0x20 0x2F,
   Cmd.trA .CSI_Param .Ground .CSI_Dispatch 0x40 0x7E,
  -- CSI_Ignore
   Cmd.ev .CSI_Ignore .Execute 0x00 0x17,
   Cmd.ev .CSI_Ignore .Execute 0x19 0x19,
   Cmd.ev .CSI_Ignore .Execute 0x1C 0x1F,
   Cmd.ev .CSI_Ignore .Ignore 0x20 0x3F,
   Cmd.ev .CSI_Ignore .Ignore 0x7F 0x7F,
   Cmd.tr .CSI_Ignore .Ground 0x40 0x7E,
  -- CSI_Intermediate
   Cmd.ev .CSI_Intermediate .Execute 0x00 0x17,
   Cmd.ev .CSI_Intermediate .Execute 0x19 0x19,
   Cmd.ev .CSI_Intermediate .Execute 0x1C 0x1F,
   Cmd.ev .CSI_Intermediate .Collect 0x20 0x2F,
   Cmd.ev .CSI_Intermediate .Ignore 0x7F 0x7F,
   Cmd.tr .CSI_Intermediate .CSI_Ignore 0x30 0x3F,
   Cmd.trA .CSI_Intermediate .Ground .CSI_Dispatch 0x40 0x7E]
  -- "* -> Ground, ..." : the anywhere loop over all states
  ++ (allStates.map
        (fun s => [Cmd.tr s .Ground 0x18 0x18, Cmd.tr s .Ground 0x1A 0x1A,
                   Cmd.tr s .Escape 0x1B 0x1B])).flatten

/-- `constexpr ParserTable ParserTable::get()`: the table built by applying
every builder call in source order to the empty table. -/
def get : ParserTable := buildCmds.foldl applyCmd ParserTable.empty

end ParserTable

/-- `Parser::handle(ActionClass, Action, uint8_t)`: the listener calls made
for one action (the `switch` of `Parser-impl.h`; `Ignore` and `Undefined`
reach no listener). -/
def handle (_cls : ActionClass) (a : Action) (ch : Fin 256) : List PEvent :=
  match a with
  | .Clear => [.clear]
  | .CollectLeader => [.collectLeader ch]
  | .Collect => [.collect ch]
  | .Param => [.param ch]
  | .ParamDigit => [.paramDigit ch]
  | .ParamSeparator => [.paramSeparator]
  | .ParamSubSeparator => [.paramSubSeparator]
  | .Execute => [.execute ch]
  | .ESC_Dispatch => [.dispatchESC ch]
  | .CSI_Dispatch => [.dispatchCSI ch]
  | .Print => [.print ch]
  | .OSC_Start => [.startOSC]
  | .OSC_Put => [.putOSC ch]
  | .OSC_End => [.dispatchOSC]
  | .Hook => [.hook ch]
  | .Put => [.put ch]
  | .Unhook => [.unhook]
  | .APC_Start => [.startAPC]
  | .APC_Put => [.putAPC ch]
  | .APC_End => [.dispatchAPC]
  | .PM_Start => [.startPM]
  | .PM_Put => [.putPM ch]
  | .PM_End => [.dispatchPM]
  | .Ignore => []
  | .Undefined => []

/-- The per-byte table dispatch of `Parser::parseFragment` (the body of the
`do` loop after the Ground fast path): on a defined transition the exit
action of the current state, the transition's event action and the entry
action of the new state are handled in that order; otherwise a defined event
action alone is handled; otherwise the listener's `error` is called.  The
Ground fast path above this code in the source only batches `print`/`execute`
for printable text via the external `unicode::scan_for_text` scanner and does
not enter the table. -/
def processByte (s : PState) (ch : Fin 256) : PState × List PEvent :=
  let table := ParserTable.get
  match table.transitions s ch with
  | some t =>
    let evs := handle .Leave (table.exitEvents s) ch
    let evs := evs ++ handle .Transition (table.events s ch) ch
    let evs := evs ++ handle .Enter (table.entryEvents t) ch
    (t, evs)
  | none =>
    if table.events s ch ≠ Action.Undefined then (s, handle .Event (table.events s ch) ch)
    else (s, [PEvent.error])

/-- The byte loop of `Parser::parseFragment`, from the given state,
accumulating the emitted events. -/
def processBytes (s : PState) : List (Fin 256) → PState × List PEvent
  | [] => (s, [])
  | b :: rest =>
    let (s1, evs) := processByte s b
    let (s2, evs2) := processBytes s1 rest
    (s2, evs ++ evs2)

/-- `Parser::parseFragment` on a parser in the initial state `Ground`. -/
def parseFragment (input : List (Fin 256)) : PState × List PEvent :=
  processBytes .Ground input

/-- Specification-side mapping: the listener event an action emits, if any
(entry/exit/event actions `Ignore` and `Undefined` emit none). -/
def eventOfAction (a : Action) (ch : Fin 256) : Option PEvent :=
  match a with
  | .Clear => some .clear
  | .CollectLeader => some (.collectLeader ch)
  | .Collect => some (.collect ch)
  | .Param => some (.param ch)
  | .ParamDigit => some (.paramDigit ch)
  | .ParamSeparator => some .paramSeparator
  | .ParamSubSeparator => some .paramSubSeparator
  | .Execute => some (.execute ch)
  | .ESC_Dispatch => some (.dispatchESC ch)
  | .CSI_Dispatch => some (.dispatchCSI ch)
  | .Print => some (.print ch)
  | .OSC_Start => some .startOSC
  | .OSC_Put => some (.putOSC ch)
  | .OSC_End => some .dispatchOSC
  | .Hook => some (.hook ch)
  | .Put => some (.put ch)
  | .Unhook => some .unhook
  | .APC_Start => some .startAPC
  | .APC_Put => some (.putAPC ch)
  | .APC_End => some .dispatchAPC
  | .PM_Start => some .startPM
  | .PM_Put => some (.putPM ch)
  | .PM_End => some .dispatchPM
  | .Ignore => none
  | .Undefined => none

/-- Classifies an event for the OSC bracketing discipline: `some true` for
`startOSC`, `some false` for `dispatchOSC`, `none` for anything else. -/
def oscDelta : PEvent → Option Bool
  | .startOSC => some true
  | .dispatchOSC => some false
  | _ => none

/-- Checks that `startOSC`/`dispatchOSC` strictly alternate in an event list,
starting from openness state `b` (`true` = an OSC string is open).  Returns
the final openness, or `none` when the discipline is violated (a `startOSC`
while open, or a `dispatchOSC` while closed). -/
def oscRun (b : Bool) : List PEvent → Option Bool
  | [] => some b
  | e :: rest =>
    match oscDelta e with
    | some true => if b then none else oscRun true rest
    | some false => if b then oscRun false rest else none
    | none => oscRun b rest

/-- Whether an OSC string is open in the given parser state. -/
def isOpen (s : PState) : Bool := s = PState.OSC_String

/-- Specification-side table of per-state exit actions (to be proved equal to
the built table's `exitEvents`): the builder registers exactly four `exit`
calls. -/
def exitSpec : PState → Action
  | .DCS_PassThrough => .Unhook
  | .OSC_String => .OSC_End
  | .APC_String => .APC_End
  | .PM_String => .PM_End
  | _ => .Undefined

/-- Specification-side table of per-state entry actions (to be proved equal
to the built table's `entryEvents`). -/
def entrySpec : PState → Action
  | .Escape => .Clear
  | .CSI_Entry => .Clear
  | .DCS_Entry => .Clear
  | .DCS_PassThrough => .Hook
  | .OSC_String => .OSC_Start
  | .APC_String => .APC_Start
  | .PM_String => .PM_Start
  | _ => .Undefined

/-- Whether a builder call only registers event actions satisfying `p`
(entry/exit registrations are not event actions). -/
def Cmd.eventOk (p : Action → Bool) : Cmd → Bool
  | .ev _ a _ _ => p a
  | .trA _ _ a _ _ => p a
  | _ => true

/-- Event actions never open or close an OSC string: the property checked
over every builder call. -/
def notOSCBracket (a : Action) : Bool := a ≠ Action.OSC_Start && a ≠ Action.OSC_End

/-- The per-byte dispatch contract of `Parser::parseFragment` (claim C1): on a
defined (state, byte) transition the parser emits the exit action's event of
the current state (if any), then the transition's event action's event (if
any), then the entry action's event of the new state (if any), and moves to
the new state; when no transition is defined but the byte has a defined event
action in the current state, exactly that action's event is emitted (none for
`Ignore`) and the state is unchanged; for an unknown (state, byte) pair the
listener's `error` is called. -/
def dispatchSpec (s : PState) (b : Fin 256) : Prop :=
  match ParserTable.get.transitions s b with
  | some t =>
    processByte s b =
      (t, (eventOfAction (ParserTable.get.exitEvents s) b).toList
            ++ (eventOfAction (ParserTable.get.events s b) b).toList
            ++ (eventOfAction (ParserTable.get.entryEvents t) b).toList)
  | none =>
    if ParserTable.get.events s b ≠ Action.Undefined then
      processByte s b = (s, (eventOfAction (ParserTable.get.events s b) b).toList)
    else
      processByte s b = (s, [PEvent.error])

end terminal.parser

namespace terminal

/-- A cell coordinate (`CellLocation` of `primitives.h`, whose `LineOffset`
and `ColumnOffset` components are boxed `int`s). -/
structure CellLocation where
  line : Int
  column : Int
deriving DecidableEq, Repr

/-- A pixel coordinate (`MousePixelPosition` of `primitives.h`). -/
structure MousePixelPosition where
  x : Int
  y : Int
deriving DecidableEq, Repr

/-- Modelled from the spec: the mouse buttons of `primitives.h` (not among
the sources).  They are combined bitwise in
`DECTextLocator::updateMousePress`, so they carry bit values; `Left = 1`
matches the spec's literal locator report `"\x1b[2;1;10;5;1&w"` (second
parameter — the button — equal to 1 for the left button). -/
inductive MouseButton
  | noButton
  | left
  | middle
  | right
  | wheelUp
  | wheelDown
deriving DecidableEq, Repr

/-- The numeric (bitmask) value of a mouse button. -/
def MouseButton.toNat : MouseButton → Nat
  | .noButton => 0
  | .left => 1
  | .middle => 2
  | .right => 4
  | .wheelUp => 8
  | .wheelDown => 16

/-- Modelled from the spec: the coordinate units of the locator, cells or
pixels (`CoordinateUnits` of `primitives.h`). -/
inductive CoordinateUnits
  | Cells
  | Pixels
deriving DecidableEq, Repr

/-- `terminal::DECLocatorEvent` (DECSLE selectors): `Explicit = 0x00`,
`ButtonDown = 0x01`, `ButtonUp = 0x02`. -/
inductive DECLocatorEvent
  | Explicit
  | ButtonDown
  | ButtonUp
deriving DecidableEq, Repr

/-- The numeric value of a `DECLocatorEvent` (its C++ enumerator value). -/
def DECLocatorEvent.toNat : DECLocatorEvent → Nat
  | .Explicit => 0x00
  | .ButtonDown => 0x01
  | .ButtonUp => 0x02

/-- `terminal::DECLocatorRectangle` (DECEFR filter rectangle; its base `Rect`
lives in `primitives.h` and is only stored, never read, in the sources). -/
structure DECLocatorRectangle where
  top : Int := 0
  left : Int := 0
  bottom : Int := 0
  right : Int := 0
deriving DecidableEq, Repr

/-- `terminal::DECLocatorReportingMode`. -/
inductive DECLocatorReportingMode
  | Disabled
  | Enabled
  | EnabledOnce
  | FilterRectangular
deriving DecidableEq, Repr

/-- The locator report event codes (the anonymous-namespace `Event` enum of
`DECTextLocator.cpp`). -/
inductive LocatorEvent
  | LocatorUnavailable
  | Request
  | LeftButtonDown
  | LeftButtonUp
  | MiddleButtonDown
  | MiddleButtonUp
  | RightButtonDown
  | RightButtonUp
  | WheelDown
  | WheelUp
  | LocatorOutsideFilterRect
deriving DecidableEq, Repr

/-- The enumerator value of a locator report event code. -/
def LocatorEvent.toNat : LocatorEvent → Nat
  | .LocatorUnavailable => 0
  | .Request => 1
  | .LeftButtonDown => 2
  | .LeftButtonUp => 3
  | .MiddleButtonDown => 4
  | .MiddleButtonUp => 5
  | .RightButtonDown => 6
  | .RightButtonUp => 7
  | .WheelDown => 8
  | .WheelUp => 9
  | .LocatorOutsideFilterRect => 10

/-- `makeEvent(MouseButton, bool)` of `DECTextLocator.cpp`. -/
def makeEvent : MouseButton → Bool → LocatorEvent
  | .noButton, _ => .LocatorUnavailable
  | .left, pressed => if pressed then .LeftButtonDown else .LeftButtonUp
  | .middle, pressed => if pressed then .MiddleButtonDown else .MiddleButtonUp
  | .right, pressed => if pressed then .RightButtonDown else .RightButtonUp
  | .wheelUp, _ => .WheelUp
  | .wheelDown, _ => .WheelDown

/-- `createReport(Event, MouseButton, LineOffset, ColumnOffset, Page)` of
`DECTextLocator.cpp` (page is always `Page::One = 1`). -/
def createReport (event : LocatorEvent) (button : MouseButton) (row column : Int) : String :=
  if event = .LocatorUnavailable then "\x1b[0&m"
  else
    "\x1b[" ++ toString event.toNat ++ ";" ++ toString button.toNat ++ ";"
      ++ toString row ++ ";" ++ toString column ++ ";" ++ toString (1 : Nat) ++ "&w"

/-- The 2³² bound and mask of the C++ 32-bit unsigned arithmetic used for the
locator's selected-event and pressed-button masks. -/
def uint32Max : Nat := 2 ^ 32 - 1

/-- `terminal::DECTextLocator`: configuration, current mouse state and the
two-slot reply back-buffer (`std::array<std::string, 2>` plus the active
index). -/
structure DECTextLocator where
  reportingMode : DECLocatorReportingMode := .Disabled
  filterRectangle : DECLocatorRectangle := {}
  units : CoordinateUnits := .Cells
  selectedLocatorEvents : Nat := DECLocatorEvent.toNat .Explicit
  cellPosition : CellLocation := ⟨0, 0⟩
  pixelPosition : MousePixelPosition := ⟨0, 0⟩
  currentlyPressedMouseButtons : Nat := MouseButton.toNat .noButton
  replyBackBufferIndex : Nat := 0
  replyBuffer0 : String := ""
  replyBuffer1 : String := ""
deriving DecidableEq, Repr

namespace DECTextLocator

/-- Reads `_replyBuffer[i]` (the index is always 0 or 1). -/
def bufGet (l : DECTextLocator) (i : Nat) : String :=
  if i = 0 then l.replyBuffer0 else l.replyBuffer1

/-- The private member `reply(...)`:
`_replyBuffer[_replyBackBufferIndex] += fmt::format(...)`. -/
def reply (l : DECTextLocator) (s : String) : DECTextLocator :=
  if l.replyBackBufferIndex = 0 then { l with replyBuffer0 := l.replyBuffer0 ++ s }
  else { l with replyBuffer1 := l.replyBuffer1 ++ s }

/-- The new selected-event mask `selectLocatorEvents` computes: `|=` the
event's value when enabling, `&= ~value` (32-bit complement) when
disabling. -/
def selectMask (e : DECLocatorEvent) (enabled : Bool) (m : Nat) : Nat :=
  if enabled then m ||| e.toNat else m &&& (uint32Max ^^^ e.toNat)

/-- `selectLocatorEvents(DECLocatorEvent, bool)` (DECSLE). -/
def selectLocatorEvents (l : DECTextLocator) (e : DECLocatorEvent) (enabled : Bool) :
    DECTextLocator :=
  { l with selectedLocatorEvents := selectMask e enabled l.selectedLocatorEvents }

/-- `reportButtonUpEvents()`: `_selectedLocatorEvents & ButtonUp` as a bool. -/
def reportButtonUpEvents (l : DECTextLocator) : Bool :=
  l.selectedLocatorEvents &&& DECLocatorEvent.toNat .ButtonUp ≠ 0

/-- `reportButtonDownEvents()`: `_selectedLocatorEvents & ButtonDown` as a bool. -/
def reportButtonDownEvents (l : DECTextLocator) : Bool :=
  l.selectedLocatorEvents &&& DECLocatorEvent.toNat .ButtonDown ≠ 0

/-- `reportEventExplicitOnly()`: `_selectedLocatorEvents == 0`. -/
def reportEventExplicitOnly (l : DECTextLocator) : Bool :=
  l.selectedLocatorEvents = 0

/-- `disableLocatorReporting()` (DECELR 0). -/
def disableLocatorReporting (l : DECTextLocator) : DECTextLocator :=
  { l with reportingMode := .Disabled }

/-- `enableLocatorReporting(units)` (DECELR 1). -/
def enableLocatorReporting (l : DECTextLocator) (units : CoordinateUnits) : DECTextLocator :=
  { l with reportingMode := .Enabled, units := units }

/-- `enableLocatorReportingOnce(units)` (DECELR 2). -/
def enableLocatorReportingOnce (l : DECTextLocator) (units : CoordinateUnits) : DECTextLocator :=
  { l with reportingMode := .EnabledOnce, units := units }

/-- `enableFilterRectangle(rect)` (DECEFR). -/
def enableFilterRectangle (l : DECTextLocator) (rect : DECLocatorRectangle) : DECTextLocator :=
  { l with reportingMode := .FilterRectangular, filterRectangle := rect }

/-- `disableFilterRectangle()`. -/
def disableFilterRectangle (l : DECTextLocator) : DECTextLocator :=
  { l with reportingMode := .Disabled }

/-- `filterRectangleEnabled()`. -/
def filterRectangleEnabled (l : DECTextLocator) : Bool :=
  l.reportingMode = .FilterRectangular

/-- `peekLocatorReply()`: the back slot, not consumed. -/
def peekLocatorReply (l : DECTextLocator) : String :=
  l.bufGet l.replyBackBufferIndex

/-- `fetchReplyAndClear()`: remembers the current index, advances
`_replyBackBufferIndex = (_replyBackBufferIndex + 1) % 2`, and returns the
string of the remembered slot (which the source leaves in place, it is not
cleared). -/
def fetchReplyAndClear (l : DECTextLocator) : String × DECTextLocator :=
  let resultIndex := l.replyBackBufferIndex
  let l' := { l with replyBackBufferIndex := (l.replyBackBufferIndex + 1) % 2 }
  (l.bufGet resultIndex, l')

/-- `updateMouseMove(cellPosition, pixelPosition)`. -/
def updateMouseMove (l : DECTextLocator) (cellPosition : CellLocation)
    (pixelPosition : MousePixelPosition) : DECTextLocator :=
  { l with cellPosition := cellPosition, pixelPosition := pixelPosition }

/-- `updateMousePress(button, buttonPressed)`: folds the button into the
pressed-button bitmask, chooses the row/column per the configured units, and
appends a `createReport` to the active reply slot. -/
def updateMousePress (l : DECTextLocator) (button : MouseButton) (buttonPressed : Bool) :
    DECTextLocator :=
  let l1 :=
    { l with
      currentlyPressedMouseButtons :=
        if buttonPressed then l.currentlyPressedMouseButtons ||| button.toNat
        else l.currentlyPressedMouseButtons &&& (uint32Max ^^^ button.toNat) }
  let event := makeEvent button buttonPressed
  let rc : Int × Int :=
    match l1.units with
    | .Cells => (l1.cellPosition.line, l1.cellPosition.column)
    | .Pixels => (l1.pixelPosition.y, l1.pixelPosition.x)
  l1.reply (createReport event button rc.1 rc.2)

/-- `update(button, buttonPressed, cellPosition, pixelPosition)` as the
source defines it: a `switch` on `_reportingMode` in which `Disabled`,
`Enabled` and `FilterRectangular` do nothing and `EnabledOnce` only resets
the mode to `Disabled`; no position is stored and no report is appended
(the bodies are `TODO(pr)` stubs). -/
def update (l : DECTextLocator) (_button : MouseButton) (_buttonPressed : Bool)
    (_cellPosition : CellLocation) (_pixelPosition : MousePixelPosition) : DECTextLocator :=
  match l.reportingMode with
  | .Disabled => l
  | .EnabledOnce => { l with reportingMode := .Disabled }
  | .Enabled => l
  | .FilterRectangular => l

end DECTextLocator

/-- The masks reachable for `_selectedLocatorEvents`: it starts as
`Explicit = 0` and is only ever changed by `selectLocatorEvents`. -/
inductive SelectReachable : Nat → Prop
  | init : SelectReachable (DECLocatorEvent.toNat .Explicit)
  | sel (m : Nat) (e : DECLocatorEvent) (enabled : Bool) :
      SelectReachable m → SelectReachable (DECTextLocator.selectMask e enabled m)

/-- `terminal::ImageFormat`. -/
inductive ImageFormat
  | RGB
  | RGBA
  | PNG
deriving DecidableEq, Repr

/-- `terminal::ImageResize`. -/
inductive ImageResize
  | NoResize
  | ResizeToFit
  | ResizeToFill
  | StretchToFill
deriving DecidableEq, Repr

/-- `terminal::ImageAlignment`. -/
inductive ImageAlignment
  | TopStart
  | TopCenter
  | TopEnd
  | MiddleStart
  | MiddleCenter
  | MiddleEnd
  | BottomStart
  | BottomCenter
  | BottomEnd
deriving DecidableEq, Repr

/-- A pixel size (`ImageSize` of `primitives.h`: width and height). -/
structure ImageSize where
  width : Nat
  height : Nat
deriving DecidableEq, Repr

/-- A grid size in cells (`GridSize` of `primitives.h`). -/
structure GridSize where
  lines : Nat
  columns : Nat
deriving DecidableEq, Repr

/-- An RGBA color (`RGBAColor` of `Color.h`), as its 32-bit value. -/
structure RGBAColor where
  value : Nat
deriving DecidableEq, Repr

/-- `terminal::Image`: the monotonic id (`ImageId`, a boxed `uint32_t`),
format, raw data bytes and pixel size. -/
structure Image where
  id : Nat
  format : ImageFormat
  data : List Nat
  size : ImageSize
deriving DecidableEq, Repr

/-- `terminal::RasterizedImage`: a shared `Image` plus the rasterization
parameters. -/
structure RasterizedImage where
  image : Image
  alignmentPolicy : ImageAlignment
  resizePolicy : ImageResize
  defaultColor : RGBAColor
  cellSpan : GridSize
  cellSize : ImageSize
deriving DecidableEq, Repr

/-- `terminal::ImageFragment`: a shared `RasterizedImage` and a grid offset
into it. -/
structure ImageFragment where
  rasterizedImage : RasterizedImage
  offset : CellLocation
deriving DecidableEq, Repr

/-- `operator==(ImageFragment const&, ImageFragment const&)`:
`a.rasterizedImage().image().id() == b.rasterizedImage().image().id()
&& a.offset() == b.offset()` (the `CellLocation` comparison of
`primitives.h` is component-wise). -/
def ImageFragment.eq (a b : ImageFragment) : Bool :=
  a.rasterizedImage.image.id == b.rasterizedImage.image.id
    && (a.offset.line == b.offset.line && a.offset.column == b.offset.column)

/-- `operator!=(ImageFragment const&, ImageFragment const&)`: `!(a == b)`. -/
def ImageFragment.ne (a b : ImageFragment) : Bool := !(ImageFragment.eq a b)

end terminal

namespace terminal

/-- Locator configured as in the spec's literal scenario 5: `Enabled` mode
with cell units (DECELR 1), `ButtonDown` selected (DECSLE). -/
def locatorEnabledButtonDown : DECTextLocator :=
  (DECTextLocator.enableLocatorReporting {} CoordinateUnits.Cells).selectLocatorEvents
    .ButtonDown true

/-- The locator after `update(Left, pressed, cell=(10,5), pixel=(1,1))` in the
`Enabled` cell-mode ButtonDown-selected configuration. -/
def locatorAfterUpdate : DECTextLocator :=
  locatorEnabledButtonDown.update .left true ⟨10, 5⟩ ⟨1, 1⟩

/-- The locator after the move/press pair the `update` stub never invokes
(`updateMouseMove` then `updateMousePress`), same configuration and input. -/
def locatorAfterMovePress : DECTextLocator :=
  (locatorEnabledButtonDown.updateMouseMove ⟨10, 5⟩ ⟨1, 1⟩).updateMousePress .left true

/-- First `fetchReplyAndClear` after one `updateMousePress(Left, true)` on a
default locator. -/
def locatorFetch1 : String × DECTextLocator :=
  (DECTextLocator.updateMousePress {} .left true).fetchReplyAndClear

/-- Second consecutive `fetchReplyAndClear` (no appends in between). -/
def locatorFetch2 : String × DECTextLocator := locatorFetch1.2.fetchReplyAndClear

/-- Third consecutive `fetchReplyAndClear` (no appends in between). -/
def locatorFetch3 : String × DECTextLocator := locatorFetch2.2.fetchReplyAndClear

end terminal

namespace crispy

variable {K V : Type} [DecidableEq K] [Inhabited K] [Inhabited V]

set_option linter.unusedSectionVars false in
/-- On a found key, `try_get` either succeeds with a `some` value or stops on
an out-of-bounds access or failed assertion; it never produces the
`not-found` outcome (that is reserved to `at` on an absent key).  The bound
`items.length ≤ npos` is the `size_t` bound every C++ vector satisfies. -/
theorem try_get_found_shape (c : LRUCache K V) (k : K) (idx : Nat)
    (hlen : c.items.length ≤ npos)
    (hl : lookupKey c.itemByKeyMapping k = some idx) :
    (∃ v c', c.try_get k = .ok (some v, c'))
    ∨ c.try_get k = .error .outOfBounds ∨ c.try_get k = .error .assertFailed := by
  unfold LRUCache.try_get
  simp only [hl]
  by_cases hne : idx ≠ c.head
  · by_cases h1 : c.head < c.items.length
    · by_cases h2 : idx < c.items.length
      · have h3 : idx ≠ npos := by
          intro h3
          exact absurd (h3 ▸ lt_of_lt_of_le h2 hlen) (lt_irrefl _)
        simp [hne, h1, h2, h3, LRUCache.modifyItem, LRUCache.getItem, LRUCache.assertCheck,
          bind, Except.bind, List.length_set]
      · simp [hne, h1, h2, LRUCache.modifyItem, LRUCache.getItem,
          bind, Except.bind, List.length_set]
    · simp [hne, h1, LRUCache.modifyItem, bind, Except.bind]
  · by_cases h2 : idx < c.items.length
    · simp [hne, h2, LRUCache.getItem, bind, Except.bind]
    · simp [hne, h2, LRUCache.getItem, bind, Except.bind]

/-- On a found key whose slot index and `head_` are in bounds, `try_get`
returns exactly the value stored in that key's slot (the link rewiring never
touches the `value` field). -/
theorem try_get_found_value (c : LRUCache K V) (k : K) (idx : Nat)
    (hl : lookupKey c.itemByKeyMapping k = some idx)
    (h2 : idx < c.items.length) (h1 : c.head < c.items.length) (h3 : idx ≠ npos) :
    (c.try_get k).map Prod.fst = .ok (some (c.items.getD idx Item.cleared).value) := by
  have hD : (c.items.getD idx Item.cleared) = c.items[idx] := by
    simp [List.getD_eq_getElem?_getD, List.getElem?_eq_getElem h2]
  unfold LRUCache.try_get
  simp only [hl]
  by_cases hne : idx ≠ c.head
  · have hne' : c.head ≠ idx := Ne.symm hne
    simp [hne, h1, h2, h3, LRUCache.modifyItem, LRUCache.getItem, LRUCache.assertCheck,
      bind, Except.bind, List.length_set, Except.map, hD, List.getElem_set_self,
      List.getElem_set_ne, hne']
  · have heq : idx = c.head := not_ne_iff.mp hne
    simp [hne, h2, LRUCache.getItem, bind, Except.bind, Except.map, hD, ← heq]

/-- Claim C7: for every cache state (with the vector within the `size_t`
bound) and every key `k`, `at(k)` fails with the not-found error if and only
if `k` is absent from `itemByKeyMapping_`; and when `k` is present (its slot
and `head_` in bounds), `at(k)` returns exactly the value stored for `k`. -/
theorem lru_at_spec (c : LRUCache K V) (k : K) (hlen : c.items.length ≤ npos) :
    (c.at' k = .error .notFound ↔ lookupKey c.itemByKeyMapping k = none)
    ∧ (∀ idx, lookupKey c.itemByKeyMapping k = some idx →
        idx < c.items.length → c.head < c.items.length → idx ≠ npos →
        (c.at' k).map Prod.fst = .ok (c.items.getD idx Item.cleared).value) := by
  constructor
  · constructor
    · intro h
      cases hl : lookupKey c.itemByKeyMapping k with
      | none => rfl
      | some idx =>
        exfalso
        rcases try_get_found_shape c k idx hlen hl with ⟨v, c', hg⟩ | hg | hg <;>
          · unfold LRUCache.at' at h
            rw [hg] at h
            simp [bind, Except.bind] at h
    · intro hl
      unfold LRUCache.at' LRUCache.try_get
      rw [hl]
      rfl
  · intro idx hl h2 h1 h3
    have hv := try_get_found_value c k idx hl h2 h1 h3
    cases hg : c.try_get k with
    | error e => rw [hg] at hv; simp [Except.map] at hv
    | ok p =>
      obtain ⟨r, c'⟩ := p
      rw [hg] at hv
      simp only [Except.map] at hv
      have hr : r = some (c.items.getD idx Item.cleared).value := by
        cases hv
        rfl
      unfold LRUCache.at'
      rw [hg, hr]
      rfl

/-- A one-entry capacity-1 cache used as the concrete witness input. -/
def lruSingleton : LRUCache Nat Nat := ⟨[⟨1, 10, npos, npos⟩], 0, 0, [(1, 0)], 1⟩

/-- Witness for claim C7: on the concrete one-entry cache, `at(2)` fails with
not-found exactly because key 2 is absent, and `at(1)` returns the stored
value 10. -/
theorem lru_at_spec_witness :
    (lruSingleton.at' 2 = .error .notFound ↔ lookupKey lruSingleton.itemByKeyMapping 2 = none)
    ∧ (lruSingleton.at' 1).map Prod.fst = .ok 10 := by
  refine ⟨(lru_at_spec lruSingleton 2 (by decide)).1, ?_⟩
  have h := (lru_at_spec lruSingleton 1 (by decide)).2 0 (by decide) (by decide) (by decide)
    (by decide)
  exact h

/-- Claim C2 (the code violates it): after `insert(1,10); insert(2,20)` on a
capacity-2 cache, `try_get(1)` promotes slot 0 (the tail) to the head.  The
resulting link chain from `head_` is `[0, 1]` — so the least recently used
slot is 1 — and the map size correctly stays 2, but `tail_` still holds 0,
the promoted slot itself: the tail does not advance to the predecessor, and
the tail-is-LRU invariant is broken (the chain's last slot is 1 ≠ `tail_`). -/
theorem lru_promote_tail_stale :
    lruPromotedTail.map (fun c => (c.head, c.tail, c.chain, c.size)) = .ok (0, 0, [0, 1], 2)
    ∧ lruPromotedTail.map (fun c => c.chain.getLast?) = .ok (some 1) :=
  ⟨rfl, rfl⟩

/-- Claim C3 (the code violates it): the literal scenario
`insert(1,'a'); insert(2,'b'); get(1); insert(3,'c')` on a capacity-2 cache
does not end with keys `[3, 1]` and `contains(2) = false`; instead the final
insert evicts via the stale `tail_` (the just-promoted key 1), erases key 1
from the map while key 2 survives, links slot 0 into a self-loop, and then
performs the out-of-bounds write `items_[npos].next = npos` (after which
`assert(tail_ != npos)` would also fail). -/
theorem lru_capacity2_scenario_faults :
    runOps 2 [LRUOp.insert 1 10, .insert 2 20, .get 1, .insert 3 30]
      = (.error .outOfBounds : Except Err (LRUCache Nat Nat)) := rfl

/-- Counterexample to claim C9: after `insert(1,10); insert(2,20); clear()`
on a capacity-2 cache, `keys()` does not traverse the pre-clear chain
(`[2, 1]`, as computed before the clear): the per-slot `Item::clear()` calls
have reset the links, so the traversal starts at the stale `head_` with
`i = 0` not below the new size 0 and immediately performs the out-of-bounds
vector write `result[0]`. -/
theorem lru_clear_keys_counterexample :
    (lruCleared.bind fun c => c.keys) = .error .outOfBounds
    ∧ (lruTwoEntries.bind fun c => c.keys) = .ok [2, 1] :=
  ⟨rfl, rfl⟩

set_option linter.unusedSectionVars false in
/-- The slot-clearing loop of `clear()` over in-bounds indices succeeds and
touches nothing but the slot vector's contents: `head_`, `tail_`, the map and
the vector length are preserved. -/
theorem foldlM_clearSlots_ok (is : List Nat) :
    ∀ c : LRUCache K V, (∀ i ∈ is, i < c.items.length) →
      ∃ c', is.foldlM (fun acc i => acc.modifyItem i (fun _ => Item.cleared)) c = .ok c'
        ∧ c'.head = c.head ∧ c'.tail = c.tail
        ∧ c'.itemByKeyMapping = c.itemByKeyMapping
        ∧ c'.items.length = c.items.length := by
  induction is with
  | nil => intro c _; exact ⟨c, rfl, rfl, rfl, rfl, rfl⟩
  | cons i rest ih =>
    intro c h
    have hi : i < c.items.length := h i (List.mem_cons_self _ _)
    have h1 : c.modifyItem i (fun _ => Item.cleared)
        = .ok { c with items := c.items.set i Item.cleared } := by
      unfold LRUCache.modifyItem
      rw [dif_pos hi]
    rw [List.foldlM_cons, h1]
    simp only [bind, Except.bind]
    obtain ⟨c', hfold, hh, ht, hm, hl⟩ :=
      ih { c with items := c.items.set i Item.cleared }
        (fun j hj => by
          simpa [List.length_set] using h j (List.mem_cons_of_mem _ hj))
    exact ⟨c', hfold, hh, ht, hm, by simpa [List.length_set] using hl⟩

/-- `clear()` on any cache whose map size is within the slot vector (always
true of real states, where `size() ≤ capacity() = items_.size()`) succeeds,
empties the map, and leaves `head_` and `tail_` exactly as they were. -/
theorem clear_ok (c : LRUCache K V) (hsz : c.size ≤ c.items.length) :
    ∃ c', c.clear = .ok c' ∧ c'.head = c.head ∧ c'.tail = c.tail
      ∧ c'.itemByKeyMapping = [] := by
  obtain ⟨c1, hfold, hh, ht, _, _⟩ :=
    foldlM_clearSlots_ok (List.range c.size) c
      (fun i hi => lt_of_lt_of_le (List.mem_range.mp hi) hsz)
  refine ⟨{ c1 with itemByKeyMapping := [] }, ?_, hh, ht, rfl⟩
  unfold LRUCache.clear
  rw [hfold]
  rfl

/-- Claim C9 as amended, for every cache: `clear()` leaves the size 0 and
`contains(k)` false for every key `k` (in particular every previously
inserted one), and `head_`/`tail_` keep their stale pre-clear indices rather
than being reset to the sentinel; consequently on a non-empty cache (where
`head_ ≠ npos`) a subsequent `keys()` call does not traverse the pre-clear
chain and does not return the empty list: with the result vector resized to
the new size 0 it immediately performs the out-of-bounds write `result[0]`
(undefined behaviour, modelled as `Err.outOfBounds`). -/
theorem lru_clear_amended (c : LRUCache K V) (hsz : c.size ≤ c.items.length) :
    ∃ c', c.clear = .ok c'
      ∧ c'.size = 0
      ∧ c'.head = c.head ∧ c'.tail = c.tail
      ∧ (∀ k, c'.contains k = .ok (false, c'))
      ∧ (c.head ≠ npos → c'.keys = .error .outOfBounds) := by
  obtain ⟨c', hc, hh, ht, hm⟩ := clear_ok c hsz
  have hs : c'.size = 0 := by simp [LRUCache.size, hm]
  refine ⟨c', hc, hs, hh, ht, ?_, ?_⟩
  · intro k
    unfold LRUCache.contains LRUCache.try_get
    rw [hm]
    rfl
  · intro hnp
    unfold LRUCache.keys
    rw [hs, hh]
    unfold LRUCache.keysGo
    rw [if_neg hnp, if_neg (by rw [hs]; exact Nat.lt_irrefl 0)]

/-- The concrete capacity-2 state reached by `insert(1,10); insert(2,20)`
(slot 0 holds key 1, slot 1 holds key 2 at the head), used as the witness
input for the amended claim. -/
def lruTwoState : LRUCache Nat Nat :=
  ⟨[⟨1, 10, 1, npos⟩, ⟨2, 20, npos, 0⟩], 1, 0, [(1, 0), (2, 1)], 2⟩

/-- Witness for the amended claim C9 on the concrete two-entry cache: the
hypotheses (size within the vector; non-sentinel head) hold, and `clear()`
empties the map, keeps `head_ = 1` and `tail_ = 0`, and makes `keys()` fail
out of bounds. -/
theorem lru_clear_amended_witness :
    (lruTwoState.size ≤ lruTwoState.items.length ∧ lruTwoState.head ≠ npos)
    ∧ ∃ c', lruTwoState.clear = .ok c'
        ∧ c'.size = 0
        ∧ c'.head = lruTwoState.head ∧ c'.tail = lruTwoState.tail
        ∧ (∀ k, c'.contains k = .ok (false, c'))
        ∧ c'.keys = .error .outOfBounds := by
  refine ⟨⟨by decide, by decide⟩, ?_⟩
  obtain ⟨c', h1, h2, h3, h4, h5, h6⟩ := lru_clear_amended lruTwoState (by decide)
  exact ⟨c', h1, h2, h3, h4, h5, h6 (by decide)⟩

end crispy

namespace terminal.parser

/-- Every action is handled as exactly the listener events `eventOfAction`
assigns it, independent of the action class. -/
theorem handle_eq_eventOfAction (cls : ActionClass) (a : Action) (ch : Fin 256) :
    handle cls a ch = (eventOfAction a ch).toList := by
  cases a <;> rfl

/-- Folding builder calls whose event-action arguments all satisfy `p` over a
table whose event entries all satisfy `p` yields a table whose event entries
all satisfy `p`. -/
theorem events_ok_foldl (p : Action → Bool) :
    ∀ (cmds : List Cmd) (t0 : ParserTable),
      (∀ s b, p (t0.events s b) = true) →
      (∀ c ∈ cmds, c.eventOk p = true) →
      ∀ s b, p ((cmds.foldl applyCmd t0).events s b) = true := by
  intro cmds
  induction cmds with
  | nil => intro t0 h0 _ s b; simpa using h0 s b
  | cons c rest ih =>
    intro t0 h0 hc s b
    simp only [List.foldl_cons]
    apply ih
    · intro s' b'
      cases c with
      | ev s1 a lo hi =>
        have ha := hc _ (List.mem_cons_self _ _)
        simp only [Cmd.eventOk] at ha
        simp only [applyCmd, ParserTable.event]
        split
        · exact ha
        · exact h0 s' b'
      | tr s1 n lo hi => simpa [applyCmd, ParserTable.transition] using h0 s' b'
      | trA s1 n a lo hi =>
        have ha := hc _ (List.mem_cons_self _ _)
        simp only [Cmd.eventOk] at ha
        simp only [applyCmd, ParserTable.transitionA, ParserTable.transition, ParserTable.event]
        split
        · exact ha
        · exact h0 s' b'
      | en s1 a => simpa [applyCmd, ParserTable.entry] using h0 s' b'
      | ex s1 a => simpa [applyCmd, ParserTable.exitAt] using h0 s' b'
    · intro c' hc'
      exact hc c' (List.mem_cons_of_mem _ hc')

set_option maxRecDepth 8000 in
/-- No event action of the built table is `OSC_Start` or `OSC_End`: those two
actions are registered only as the entry and exit action of `OSC_String`. -/
theorem events_notOSCBracket (s : PState) (b : Fin 256) :
    notOSCBracket (ParserTable.get.events s b) = true :=
  events_ok_foldl notOSCBracket ParserTable.buildCmds ParserTable.empty
    (fun _ _ => rfl) (by decide) s b

set_option maxRecDepth 8000 in
/-- The built table's exit actions are exactly `exitSpec`. -/
theorem exitEvents_eq : ∀ s, ParserTable.get.exitEvents s = exitSpec s := by decide

set_option maxRecDepth 8000 in
/-- The built table's entry actions are exactly `entrySpec`. -/
theorem entryEvents_eq : ∀ s, ParserTable.get.entryEvents s = entrySpec s := by decide

/-- Handling an action that is not an OSC bracket leaves the OSC openness
unchanged. -/
theorem oscRun_handle (b : Bool) (cls : ActionClass) (a : Action) (ch : Fin 256)
    (h : notOSCBracket a = true) : oscRun b (handle cls a ch) = some b := by
  cases a <;> simp_all [handle, oscRun, oscDelta, notOSCBracket]

/-- Handling a state's exit action always leaves the OSC string closed:
leaving `OSC_String` emits `dispatchOSC` (closing it), and no other state's
exit action touches the OSC events. -/
theorem oscRun_exitSpec (s : PState) (cls : ActionClass) (ch : Fin 256) :
    oscRun (isOpen s) (handle cls (exitSpec s) ch) = some false := by
  cases s <;> rfl

/-- Handling the entered state's entry action opens the OSC string exactly
when the entered state is `OSC_String`. -/
theorem oscRun_entrySpec (t : PState) (cls : ActionClass) (ch : Fin 256) :
    oscRun false (handle cls (entrySpec t) ch) = some (isOpen t) := by
  cases t <;> rfl

/-- The OSC alternation checker is compositional over concatenation. -/
theorem oscRun_append (xs ys : List PEvent) :
    ∀ b, oscRun b (xs ++ ys) = (oscRun b xs).bind (fun b' => oscRun b' ys) := by
  induction xs with
  | nil => intro b; rfl
  | cons e rest ih =>
    intro b
    cases he : oscDelta e with
    | none => simp [oscRun, he, ih]
    | some v => cases v <;> cases b <;> simp [oscRun, he, ih]

/-- One table dispatch preserves the OSC bracketing discipline: the events a
byte emits keep `startOSC`/`dispatchOSC` strictly alternating, and the
parser's new state is `OSC_String` exactly when the string is left open. -/
theorem oscRun_processByte (s : PState) (b : Fin 256) :
    oscRun (isOpen s) (processByte s b).2 = some (isOpen (processByte s b).1) := by
  cases h : ParserTable.get.transitions s b with
  | some t =>
    have h2 : processByte s b
        = (t, handle .Leave (ParserTable.get.exitEvents s) b
              ++ handle .Transition (ParserTable.get.events s b) b
              ++ handle .Enter (ParserTable.get.entryEvents t) b) := by
      simp [processByte, h]
    rw [h2]
    rw [List.append_assoc, oscRun_append, exitEvents_eq, oscRun_exitSpec]
    rw [Option.some_bind, oscRun_append, oscRun_handle _ _ _ _ (events_notOSCBracket s b)]
    rw [Option.some_bind, entryEvents_eq, oscRun_entrySpec]
  | none =>
    by_cases he : ParserTable.get.events s b = Action.Undefined
    · have h2 : processByte s b = (s, [PEvent.error]) := by simp [processByte, h, he]
      rw [h2]
      rfl
    · have h2 : processByte s b = (s, handle .Event (ParserTable.get.events s b) b) := by
        simp [processByte, h, he]
      rw [h2]
      exact oscRun_handle (isOpen s) ActionClass.Event (ParserTable.get.events s b) b
        (events_notOSCBracket s b)

/-- The byte loop preserves the OSC bracketing discipline from any state. -/
theorem oscRun_processBytes (input : List (Fin 256)) : ∀ s : PState,
    oscRun (isOpen s) (processBytes s input).2 = some (isOpen (processBytes s input).1) := by
  induction input with
  | nil => intro s; rfl
  | cons b rest ih =>
    intro s
    simp only [processBytes]
    rw [oscRun_append, oscRun_processByte s b, Option.some_bind]
    exact ih _

/-- Claim C1: for each byte that drives a table dispatch, the parser emits
the exit action's event of the current state (if any), then the transition's
event action's event (if any), then the entry action's event of the new
state (if any); when no transition is defined but the byte has a defined
event action in the current state, only that action's event is emitted; for
an unknown (state, byte) pair the listener's `error` is called. -/
theorem parser_dispatch_order : ∀ (s : PState) (b : Fin 256), dispatchSpec s b := by
  intro s b
  unfold dispatchSpec
  cases h : ParserTable.get.transitions s b with
  | some t => simp [processByte, h, handle_eq_eventOfAction]
  | none =>
    by_cases he : ParserTable.get.events s b = Action.Undefined
    · simp [processByte, h, he]
    · simp [processByte, h, he, handle_eq_eventOfAction]

/-- Claim C6: for every input byte sequence from the initial state `Ground`,
the `startOSC`/`dispatchOSC` events of the emitted trace strictly alternate
starting with `startOSC` (`oscRun false` succeeds) — so every `startOSC` is
matched by exactly one `dispatchOSC` before the next `startOSC`; and in
particular byte `0x07` (BEL) in state `OSC_String` moves the parser to
`Ground` emitting exactly `dispatchOSC` (the exit action of `OSC_String`). -/
theorem parser_osc_matched :
    (∀ input : List (Fin 256), (oscRun false (parseFragment input).2).isSome = true)
    ∧ processByte PState.OSC_String 0x07 = (PState.Ground, [PEvent.dispatchOSC]) := by
  constructor
  · intro input
    have h : oscRun false (processBytes PState.Ground input).2
        = some (isOpen (processBytes PState.Ground input).1) :=
      oscRun_processBytes input PState.Ground
    simp [parseFragment, h]
  · decide

end terminal.parser

namespace terminal

/-- Every reachable selected-event mask stays below 4: enabling ORs in an
event value below 4; disabling ANDs (which cannot grow the mask). -/
theorem selectReachable_lt {m : Nat} (h : SelectReachable m) : m < 4 := by
  induction h with
  | init => decide
  | sel m e enabled _ ih =>
    cases enabled with
    | true =>
      have he : DECLocatorEvent.toNat e < 2 ^ 2 := by cases e <;> decide
      have hm : m < 2 ^ 2 := ih
      simpa [DECTextLocator.selectMask] using Nat.or_lt_two_pow hm he
    | false =>
      simp only [DECTextLocator.selectMask, if_false, Bool.false_eq_true]
      exact lt_of_le_of_lt Nat.and_le_left ih

/-- Claim C10: `selectLocatorEvents(Explicit, b)` leaves the locator state
unchanged for either boolean (its `|= 0` / `&= ~0` are identities on the
32-bit mask), and on every reachable mask `reportEventExplicitOnly()` is
true exactly when neither `ButtonDown` nor `ButtonUp` is selected. -/
theorem locator_select_explicit (l : DECTextLocator) (b : Bool) :
    (l.selectedLocatorEvents < 2 ^ 32 → l.selectLocatorEvents .Explicit b = l)
    ∧ (SelectReachable l.selectedLocatorEvents →
        (l.reportEventExplicitOnly = true ↔
          (l.reportButtonDownEvents = false ∧ l.reportButtonUpEvents = false))) := by
  constructor
  · intro hm
    unfold DECTextLocator.selectLocatorEvents DECTextLocator.selectMask
    cases b with
    | true => simp [DECLocatorEvent.toNat]
    | false =>
      simp [DECLocatorEvent.toNat, Nat.xor_zero, uint32Max,
        Nat.and_pow_two_sub_one_of_lt_two_pow hm]
  · intro hre
    have h4 := selectReachable_lt hre
    obtain ⟨mode, rect, units, sel, cell, pix, press, bidx, b0, b1⟩ := l
    simp only at h4
    unfold DECTextLocator.reportEventExplicitOnly DECTextLocator.reportButtonDownEvents
      DECTextLocator.reportButtonUpEvents
    interval_cases sel <;> simp [DECLocatorEvent.toNat]

/-- Witness for claim C10 on a default-constructed locator (mask 0, which is
reachable as the initial `Explicit` value). -/
theorem locator_select_explicit_witness :
    (DECTextLocator.selectLocatorEvents {} .Explicit true = ({} : DECTextLocator))
    ∧ (DECTextLocator.reportEventExplicitOnly {} = true ↔
        (DECTextLocator.reportButtonDownEvents {} = false
          ∧ DECTextLocator.reportButtonUpEvents {} = false)) := by
  have h := locator_select_explicit ({} : DECTextLocator) true
  exact ⟨h.1 (by decide), h.2 SelectReachable.init⟩

/-- Claim C4 (the code violates it): with the locator `Enabled` in cell
units and `ButtonDown` selected, `update(Left, pressed=true, cell=(10,5),
pixel=(1,1))` leaves the reply buffer empty — the next `fetchReplyAndClear()`
returns `""`, not the claimed report — because `update`'s switch bodies are
`TODO(pr)` stubs that never store the position nor append a report.  The
second conjunct shows the very report machinery the stub fails to invoke
(`updateMouseMove` then `updateMousePress`) produces exactly the claimed
string `"\x1b[2;1;10;5;1&w"`. -/
theorem locator_update_appends_no_report :
    locatorAfterUpdate.fetchReplyAndClear.1 = ""
    ∧ locatorAfterMovePress.fetchReplyAndClear.1 = "\x1b[2;1;10;5;1&w" :=
  ⟨rfl, rfl⟩

/-- Claim C5 (the code violates it): `fetchReplyAndClear()` flips the slot
index and returns the previously pending slot, but never clears it.  After a
single `updateMousePress(Left, true)` report, three consecutive fetches
return the report, then `""`, then the same stale report again — although
the third call is the second of a consecutive pair with no appends in
between, which the claim says must return the empty string. -/
theorem locator_fetch_returns_stale_reply :
    locatorFetch1.1 = "\x1b[2;1;0;0;1&w" ∧ locatorFetch2.1 = ""
    ∧ locatorFetch3.1 = "\x1b[2;1;0;0;1&w" :=
  ⟨rfl, rfl, rfl⟩

/-- Claim C8: two image fragments compare equal (`operator==`) exactly when
the ids of their underlying images agree and their grid offsets agree, and
`operator!=` is the exact negation of `operator==`. -/
theorem fragment_eq_iff (a b : ImageFragment) :
    (ImageFragment.eq a b = true ↔
      (a.rasterizedImage.image.id = b.rasterizedImage.image.id ∧ a.offset = b.offset))
    ∧ ImageFragment.ne a b = !ImageFragment.eq a b := by
  refine ⟨?_, rfl⟩
  obtain ⟨ra, ⟨l1, c1⟩⟩ := a
  obtain ⟨rb, ⟨l2, c2⟩⟩ := b
  simp [ImageFragment.eq, CellLocation.mk.injEq]

end terminal
